import Mathlib

/-!
Verification of the example-ec-platform repository core: the inventory
reservation engine (domain `Inventory` and `Reservation` aggregates, the
`inventoryUseCase`, the `txManager`, the `ReservationExpirer`) and the edge
auth plane (JWT `Validator`, `RateLimiter`, `Authorizer`).

Modelling conventions (shallow embedding of the Go source):
* Go `int64` / `int` values are modelled as `Int`; timestamps (`time.Time`)
  as `Int` instants, with `a.After(b)` becoming `a > b` and `a.Before(b)`
  becoming `a < b`; durations as `Int`.
* UUIDs are modelled as `Nat` identifiers; the lexicographic order on their
  string forms is abstracted as the order on the identifiers.
* Fallible Go functions returning `(T, error)` become `Except DomainError T`
  (or `Option DomainError × State` where partial effects on shared state
  must be kept on failure).
* Database rows live in state records; `pool.Exec` statements are modelled
  as immediate (auto-committed) state updates, `tx.Exec` statements as
  updates that are kept only if the whole transaction commits.
-/

namespace ECSpec

/-- Domain sentinel errors of services/product/internal/domain/errors.go. -/
inductive DomainError where
  | invalidQuantity
  | insufficientStock
  | invalidReserved
  | reservationExpired
  | reservationNotPending
  | reservationNotFound
  | inventoryNotFound
  | idempotencyKeyExists
  | batchSizeExceeded
  | optimisticLockConflict
deriving DecidableEq, Repr

/-! ## Inventory domain entity (src/unnamed/part_021) -/

structure Inventory where
  skuID : Nat
  quantity : Int
  reserved : Int
  version : Int
deriving DecidableEq, Repr

/-- `NewInventory` from part_021: rejects a negative quantity, otherwise
starts with `Reserved = 0`, `Version = 1`. -/
def NewInventory (skuID : Nat) (quantity : Int) : Except DomainError Inventory :=
  if quantity < 0 then .error .invalidQuantity
  else .ok { skuID := skuID, quantity := quantity, reserved := 0, version := 1 }

def Inventory.Available (i : Inventory) : Int := i.quantity - i.reserved

def Inventory.CanReserve (i : Inventory) (amount : Int) : Prop := i.Available ≥ amount

instance (i : Inventory) (amount : Int) : Decidable (i.CanReserve amount) := by
  unfold Inventory.CanReserve; infer_instance

/-- `Inventory.Reserve` from part_021. -/
def Inventory.Reserve (i : Inventory) (amount : Int) : Except DomainError Inventory :=
  if amount ≤ 0 then .error .invalidQuantity
  else if ¬ i.CanReserve amount then .error .insufficientStock
  else .ok { i with reserved := i.reserved + amount, version := i.version + 1 }

/-- `Inventory.ConfirmReservation` from part_021. -/
def Inventory.ConfirmReservation (i : Inventory) (amount : Int) : Except DomainError Inventory :=
  if amount ≤ 0 then .error .invalidQuantity
  else if i.reserved < amount then .error .invalidReserved
  else .ok { i with quantity := i.quantity - amount
                  , reserved := i.reserved - amount
                  , version := i.version + 1 }

/-- `Inventory.ReleaseReservation` from part_021. -/
def Inventory.ReleaseReservation (i : Inventory) (amount : Int) : Except DomainError Inventory :=
  if amount ≤ 0 then .error .invalidQuantity
  else if i.reserved < amount then .error .invalidReserved
  else .ok { i with reserved := i.reserved - amount, version := i.version + 1 }

/-- `Inventory.SetQuantity` from part_021. -/
def Inventory.SetQuantity (i : Inventory) (quantity : Int) : Except DomainError Inventory :=
  if quantity < 0 then .error .invalidQuantity
  else if quantity < i.reserved then .error .insufficientStock
  else .ok { i with quantity := quantity, version := i.version + 1 }

/-- The spec invariant for inventory rows: `quantity ≥ reserved ≥ 0`. -/
def Inventory.Invariant (i : Inventory) : Prop :=
  i.quantity ≥ i.reserved ∧ i.reserved ≥ 0

instance (i : Inventory) : Decidable i.Invariant := by
  unfold Inventory.Invariant; infer_instance

/-! ## Reservation domain entity (src/unnamed/part_020) -/

inductive ReservationStatus where
  | pending
  | confirmed
  | released
  | expired
deriving DecidableEq, Repr

def ReservationStatus.IsFinal (s : ReservationStatus) : Bool :=
  s = .confirmed ∨ s = .released ∨ s = .expired

structure ReservationItem where
  skuID : Nat
  quantity : Int
deriving DecidableEq, Repr

structure Reservation where
  id : Nat
  status : ReservationStatus
  items : List ReservationItem
  expiresAt : Int
  createdAt : Int
  updatedAt : Int
deriving DecidableEq, Repr

/-- `NewReservation` from part_020: rejects empty item lists and
non-positive quantities; otherwise status PENDING, expiry `now + ttl`.
The freshly generated UUIDv7 is abstracted as the supplied `freshId`. -/
def NewReservation (items : List ReservationItem) (ttl : Int) (now : Int) (freshId : Nat) :
    Except DomainError Reservation :=
  if items = [] then .error .invalidQuantity
  else if items.any (fun it => it.quantity ≤ 0) then .error .invalidQuantity
  else .ok { id := freshId, status := .pending, items := items
           , expiresAt := now + ttl, createdAt := now, updatedAt := now }

/-- `IsExpired`: `time.Now().UTC().After(r.ExpiresAt)`. -/
def Reservation.IsExpired (r : Reservation) (now : Int) : Bool := now > r.expiresAt

def Reservation.IsPending (r : Reservation) : Bool := r.status = .pending

def Reservation.CanConfirm (r : Reservation) (now : Int) : Bool :=
  r.IsPending && !(r.IsExpired now)

def Reservation.CanRelease (r : Reservation) : Bool := r.IsPending

/-- `Reservation.Confirm` from part_020. -/
def Reservation.Confirm (r : Reservation) (now : Int) : Except DomainError Reservation :=
  if !(r.CanConfirm now) then
    if r.IsExpired now then .error .reservationExpired
    else .error .reservationNotPending
  else .ok { r with status := .confirmed, updatedAt := now }

/-- `Reservation.Release` from part_020. -/
def Reservation.Release (r : Reservation) (now : Int) : Except DomainError Reservation :=
  if !r.CanRelease then .error .reservationNotPending
  else .ok { r with status := .released, updatedAt := now }

/-- `Reservation.Expire` from part_020. -/
def Reservation.Expire (r : Reservation) (now : Int) : Except DomainError Reservation :=
  if r.status ≠ .pending then .error .reservationNotPending
  else .ok { r with status := .expired, updatedAt := now }

/-! ## FailureRateLimiter (src/unnamed/part_001) -/

structure RateLimitConfig where
  failureThreshold : Int
  window : Int
  cooldown : Int
deriving DecidableEq, Repr

/-- Per-IP failure state; the Go zero `time.Time` for `cooldownUntil` is
modelled as `none`. -/
structure IpState where
  failureCount : Int
  windowStart : Int
  cooldownUntil : Option Int
deriving DecidableEq, Repr

/-- The rate limiter's `state` map from IP to `ipState`. -/
def RLState := String → Option IpState

namespace RateLimiter

/-- `IsRateLimited` from part_001: true iff the entry exists, its cooldown
is set and `now` is before it. -/
def IsRateLimited (st : RLState) (now : Int) (ip : String) : Bool :=
  match st ip with
  | none => false
  | some s =>
    match s.cooldownUntil with
    | none => false
    | some c => decide (now < c)

/-- `GetFailureCount` from part_001. -/
def GetFailureCount (st : RLState) (ip : String) : Int :=
  match st ip with
  | none => 0
  | some s => s.failureCount

/-- The two reset blocks at the start of `RecordFailure` (part_001): full
reset when a set cooldown has passed, then counter/window reset when the
window has lapsed. -/
def entryAfterResets (cfg : RateLimitConfig) (now : Int) (s0 : IpState) : IpState :=
  let s1 : IpState :=
    match s0.cooldownUntil with
    | some c =>
      if now > c then { failureCount := 0, windowStart := now, cooldownUntil := none }
      else s0
    | none => s0
  if now - s1.windowStart > cfg.window then
    { s1 with failureCount := 0, windowStart := now }
  else s1

/-- `RecordFailure` from part_001: create the entry if absent with
`windowStart = now`; apply the resets of `entryAfterResets`; increment the
counter; on reaching the threshold set the cooldown and return true. -/
def RecordFailure (cfg : RateLimitConfig) (st : RLState) (now : Int) (ip : String) :
    Bool × RLState :=
  let s0 := (st ip).getD { failureCount := 0, windowStart := now, cooldownUntil := none }
  let s2 := entryAfterResets cfg now s0
  let s3 : IpState := { s2 with failureCount := s2.failureCount + 1 }
  if s3.failureCount ≥ cfg.failureThreshold then
    (true, fun k => if k = ip then
        some { s3 with cooldownUntil := some (now + cfg.cooldown) } else st k)
  else
    (false, fun k => if k = ip then some s3 else st k)

/-- `Reset` from part_001. -/
def Reset (st : RLState) (ip : String) : RLState :=
  fun k => if k = ip then none else st k

end RateLimiter

/-! ## Authorizer (authz package, in src/bff/go.mod bundle) -/

inductive AuthResult where
  | allow
  | unauthenticated
  | permissionDenied
deriving DecidableEq, Repr

/-- Character-list splitter behind `goSplit`. -/
def splitChars (sep : Char) : List Char → List (List Char)
  | [] => [[]]
  | c :: rest =>
    let r := splitChars sep rest
    if c = sep then [] :: r
    else
      match r with
      | g :: gs => (c :: g) :: gs
      | [] => [[c]]

/-- Go's `strings.Split(s, sep)` for a one-character separator: the count
of fields is one more than the count of separators, and empty fields are
kept (`Split("", " ") = [""]`). Structurally recursive so that it
evaluates. -/
def goSplit (s : String) (sep : Char) : List String :=
  (splitChars sep s.data).map (fun l => String.mk l)

namespace Authorizer

/-- `HasScope`: the context scope string is split on single spaces and each
token compared for equality; an empty scope string has no scopes. -/
def HasScope (scopes : String) (scope : String) : Bool :=
  if scopes = "" then false
  else (goSplit scopes ' ').any (fun s => s = scope)

/-- `CanAccessUser`: UNAUTHENTICATED without a subject; admin scope grants
any target; otherwise only the subject itself. -/
def CanAccessUser (currentUserID targetUserID scopes : String) : AuthResult :=
  if currentUserID = "" then .unauthenticated
  else if HasScope scopes "admin" then .allow
  else if currentUserID ≠ targetUserID then .permissionDenied
  else .allow

end Authorizer

/-! ## JWT Validator (src/bff/internal/jwt/validator.go) -/

/-- A key algorithm as returned by `key.Algorithm()` (jwa.KeyAlgorithm):
either a signature algorithm (the type the code's cast accepts) or some
other algorithm family. -/
inductive KeyAlg where
  | sig (name : String)
  | nonsig (name : String)
deriving DecidableEq, Repr

structure JWK where
  kid : String
  alg : Option KeyAlg
deriving DecidableEq, Repr

/-- The value found under the "scope" claim. -/
inductive ScopeClaim where
  | absent
  | notString
  | str (s : String)
deriving DecidableEq, Repr

/-- Outcome of the jwx `jwt.Parse` call with key, `WithValidate` and the
configured issuer/audience/skew options; the library's cryptographic
verification and claim validation are treated as an oracle recorded on the
token. -/
inductive JwxOutcome where
  | ok
  | expired
  | invalidIssuer
  | invalidAudience
  | notYetValid
  | otherValidation (msg : String)
  | otherError (msg : String)
deriving DecidableEq, Repr

/-- The relevant observable content of a presented bearer credential. -/
structure Token where
  parseInsecureOk : Bool
  kidHeader : Option String
  algHeader : Option String
  sub : String
  iss : String
  aud : List String
  expVal : Int
  iatVal : Int
  scope : ScopeClaim
  outcome : JwxOutcome
deriving DecidableEq, Repr

structure ValidatedClaims where
  subject : String
  scopes : List String
  expiresAt : Int
  issuedAt : Int
deriving DecidableEq, Repr

structure ValidatorConfig where
  issuer : String
  audience : String
  clockSkew : Int
deriving DecidableEq, Repr

/-- The validator's tagged error types. Untagged `fmt.Errorf` errors are
modelled by `generic`. -/
inductive VError where
  | tokenExpired (expiredAt : Int)
  | invalidIssuer (expected actual : String)
  | invalidAudience (expected : String) (actual : List String)
  | invalidSignature (reason : String)
  | invalidAlgorithm (alg : String)
  | generic (msg : String)
deriving DecidableEq, Repr

/-- `IsTokenExpiredError`: `errors.As` against `*TokenExpiredError`. -/
def IsTokenExpiredError : VError → Bool
  | .tokenExpired _ => true
  | _ => false

def IsInvalidIssuerError : VError → Bool
  | .invalidIssuer _ _ => true
  | _ => false

def IsInvalidAudienceError : VError → Bool
  | .invalidAudience _ _ => true
  | _ => false

def IsInvalidSignatureError : VError → Bool
  | .invalidSignature _ => true
  | _ => false

def IsInvalidAlgorithmError : VError → Bool
  | .invalidAlgorithm _ => true
  | _ => false

/-- `extractScopes` from validator.go: a missing or non-string "scope"
claim yields no scopes; an empty string yields no scopes; otherwise the
string splits on single spaces. -/
def extractScopes : ScopeClaim → List String
  | .absent => []
  | .notString => []
  | .str s => if s = "" then [] else goSplit s ' '

namespace Validator

/-- `mapValidationError` from validator.go. The `.ok` arm is unreachable
(the function is only invoked on a failing `jwt.Parse`) and is mapped to
the final untagged fallthrough. -/
def mapValidationError (cfg : ValidatorConfig) (t : Token) : JwxOutcome → VError
  | .expired => .tokenExpired t.expVal
  | .invalidIssuer => .invalidIssuer cfg.issuer t.iss
  | .invalidAudience => .invalidAudience cfg.audience t.aud
  | .notYetValid => .generic "token not yet valid: nbf claim validation failed"
  | .otherValidation msg => .invalidSignature msg
  | .otherError msg => .generic ("token validation failed: " ++ msg)
  | .ok => .generic "token validation failed: "

/-- The tail of `Validate` after key resolution and the algorithm check:
verify-and-validate via jwx, then either extract claims or map the error. -/
def verifyParsed (cfg : ValidatorConfig) (t : Token) : Except VError ValidatedClaims :=
  match t.outcome with
  | .ok => .ok { subject := t.sub, scopes := extractScopes t.scope
               , expiresAt := t.expVal, issuedAt := t.iatVal }
  | o => .error (mapValidationError cfg t o)

/-- `Validator.Validate` from validator.go: parse-insecure, extract the
key-id from the header (the header's `alg` field is parsed alongside but
never used), resolve the key in the JWKS, check the KEY's algorithm
(only a signature algorithm different from RS256 is rejected), then
verify and validate. Key-cache infrastructure failures are outside this
model (the key set is given as a list). -/
def Validate (cfg : ValidatorConfig) (keys : List JWK) (t : Token) :
    Except VError ValidatedClaims :=
  match t.parseInsecureOk with
  | false => .error (.invalidSignature "failed to parse token")
  | true =>
    match t.kidHeader with
    | none => .error (.invalidSignature "missing kid in token header")
    | some kid =>
      if kid = "" then .error (.invalidSignature "missing kid in token header")
      else
        match keys.find? (fun k => k.kid = kid) with
        | none => .error (.invalidSignature ("key not found: " ++ kid))
        | some key =>
          match key.alg with
          | some (.sig a) =>
            if a ≠ "RS256" then .error (.invalidAlgorithm a)
            else verifyParsed cfg t
          | _ => verifyParsed cfg t

end Validator

/-! ## Inventory use case, repositories, transaction manager, expirer
(src/services/product/internal/usecase/inventory.go, src/unnamed/part_022,
src/unnamed/part_023, reservation_expirer.go) -/

/-- Values the use case stores in the idempotency KV: the "processing"
marker, a reservation id in string form (the strings that `uuid.Parse`
accepts), or the "done" marker of the confirm:/release: flows. -/
inductive IdemVal where
  | processing
  | rid (id : Nat)
  | done
deriving DecidableEq, Repr

/-- The idempotency store (Redis string KV; TTLs are not modelled). -/
def KVStore := String → Option IdemVal

def kvSet (k : String) (v : IdemVal) (kv : KVStore) : KVStore :=
  fun x => if x = k then some v else kv x

def kvDel (k : String) (kv : KVStore) : KVStore :=
  fun x => if x = k then none else kv x

/-- The inventory table keyed by SKU id. -/
def InvMap := Nat → Option Inventory

def invSet (sku : Nat) (i : Inventory) (m : InvMap) : InvMap :=
  fun k => if k = sku then some i else m k

/-- `FindByID` of PostgresReservationRepository (part_022): the row with
the id, if any. -/
def findResById (id : Nat) (rs : List Reservation) : Option Reservation :=
  rs.find? (fun r => r.id = id)

/-- Shape shared by the pool-level conditional inventory updates of
part_023 (`ConfirmReservation`, `ReleaseReservation`): one UPDATE guarded
by `reserved >= amount`; zero rows affected is ErrInvalidReserved. -/
def poolGuardedUpdate (f : Inventory → Int → Inventory) (sku : Nat) (amount : Int)
    (m : InvMap) : Except DomainError InvMap :=
  match m sku with
  | some i =>
    if i.reserved ≥ amount then .ok (invSet sku (f i amount) m)
    else .error .invalidReserved
  | none => .error .invalidReserved

/-- The row change of `ConfirmReservation`'s UPDATE: `quantity -= amount`,
`reserved -= amount`, `version += 1`. -/
def confirmUpdate (i : Inventory) (q : Int) : Inventory :=
  { i with quantity := i.quantity - q, reserved := i.reserved - q, version := i.version + 1 }

/-- The row change of `ReleaseReservation`'s UPDATE: `reserved -= amount`,
`version += 1` (quantity untouched). -/
def releaseUpdate (i : Inventory) (q : Int) : Inventory :=
  { i with reserved := i.reserved - q, version := i.version + 1 }

def PostgresInventoryRepository.ConfirmReservation : Nat → Int → InvMap →
    Except DomainError InvMap :=
  poolGuardedUpdate confirmUpdate

def PostgresInventoryRepository.ReleaseReservation : Nat → Int → InvMap →
    Except DomainError InvMap :=
  poolGuardedUpdate releaseUpdate

/-- `ReserveWithTx` from part_023: UPDATE guarded by
`quantity - reserved >= amount`; zero rows affected is
ErrInsufficientStock. Runs on the transaction handle. -/
def PostgresInventoryRepository.ReserveWithTx (sku : Nat) (amount : Int) (m : InvMap) :
    Except DomainError InvMap :=
  match m sku with
  | some i =>
    if i.quantity - i.reserved ≥ amount then
      .ok (invSet sku { i with reserved := i.reserved + amount, version := i.version + 1 } m)
    else .error .insufficientStock
  | none => .error .insufficientStock

/-- `UpdateStatus` from part_022: `UPDATE ... SET status, updated_at WHERE
id = $1`; zero rows affected is ErrReservationNotFound. -/
def PostgresReservationRepository.UpdateStatus (id : Nat) (status : ReservationStatus)
    (now : Int) (rs : List Reservation) : Except DomainError (List Reservation) :=
  if (rs.find? (fun r => r.id = id)).isSome then
    .ok (rs.map (fun r => if r.id = id then { r with status := status, updatedAt := now } else r))
  else .error .reservationNotFound

/-- The whole mutable state seen by the use case: inventory rows,
reservation rows, idempotency KV. -/
structure UCState where
  inv : InvMap
  reservations : List Reservation
  idem : KVStore

/-- A sequential loop of pool-level (auto-committed) guarded updates, one
per item, stopping at the first failure and KEEPING the effects already
made — the loop shape of `ConfirmReservation`/`ReleaseReservation` in the
use case and of `expireReservation` in the worker. -/
def runItemsLoop (f : Inventory → Int → Inventory) :
    List ReservationItem → InvMap → Option DomainError × InvMap
  | [], m => (none, m)
  | it :: rest, m =>
    match poolGuardedUpdate f it.skuID it.quantity m with
    | .error e => (some e, m)
    | .ok m' => runItemsLoop f rest m'

def runConfirmItems : List ReservationItem → InvMap → Option DomainError × InvMap :=
  runItemsLoop confirmUpdate

def runReleaseItems : List ReservationItem → InvMap → Option DomainError × InvMap :=
  runItemsLoop releaseUpdate

namespace ReservationExpirer

/-- `expireReservation` from reservation_expirer.go: for each item release
the reserved amount, then update the status to EXPIRED. Each repository
call executes on the pool. -/
def expireReservation (now : Int) (res : Reservation) (s : UCState) :
    Option DomainError × UCState :=
  match runReleaseItems res.items s.inv with
  | (some e, m') => (some e, { s with inv := m' })
  | (none, m') =>
    match PostgresReservationRepository.UpdateStatus res.id .expired now s.reservations with
    | .error e => (some e, { s with inv := m' })
    | .ok rs' => (none, { s with inv := m', reservations := rs' })

end ReservationExpirer

/-- `txManager.Do` from part_022: `pool.Begin` opens a transaction, but
`fn` receives the ORIGINAL ctx — `WithTx`/`TxFromContext` exist in the
same file yet `Do` never injects the handle — and the repository methods
invoked by the expirer execute on the pool's auto-committed connections.
The begun transaction therefore contains no statements, and its deferred
rollback (on failure) or commit (on success) leaves the pool effects in
place either way: `Do` reduces to running `fn` on the shared state. -/
def txManagerDo (fn : UCState → Option DomainError × UCState) (s : UCState) :
    Option DomainError × UCState :=
  fn s

/-- `usecase.ReserveItem`/`BatchReserveInput` (inventory.go); items share
the shape of `domain.ReservationItem`. A zero TTL selects the default. -/
structure BatchReserveInput where
  items : List ReservationItem
  idempotencyKey : String
  ttl : Int

structure UCConfig where
  maxBatchSize : Nat
  defaultTTL : Int
  idempotencyTTL : Int

/-- Insertion step of the sort-by-SKU-id of `BatchReserveInventory`
(`sort.Slice` on `SKUID.String()`; the order on the string forms is
abstracted as the order on the ids). -/
def sortItemsInsert (it : ReservationItem) : List ReservationItem → List ReservationItem
  | [] => [it]
  | x :: xs => if it.skuID ≤ x.skuID then it :: x :: xs else x :: sortItemsInsert it xs

def sortItems : List ReservationItem → List ReservationItem
  | [] => []
  | x :: xs => sortItemsInsert x (sortItems xs)

namespace inventoryUseCase

/-- The transactional reserve loop of `BatchReserveInventory`: one
`ReserveWithTx` per sorted item inside `DoWithTx`; a failure rolls the
whole transaction back, so the result is all-or-nothing. -/
def txReserveItems : List ReservationItem → InvMap → Except DomainError InvMap
  | [], m => .ok m
  | it :: rest, m =>
    match PostgresInventoryRepository.ReserveWithTx it.skuID it.quantity m with
    | .error e => .error e
    | .ok m' => txReserveItems rest m'

/-- `BatchReserveInventory` after the idempotency lock step: sort, apply
the default TTL, build the aggregate, run the transaction; on any failure
delete the lock if one was acquired (the deferred cleanup); on success
store the reservation id under the key. -/
def batchReserveLocked (cfg : UCConfig) (now : Int) (freshId : Nat)
    (input : BatchReserveInput) (lockAcquired : Bool) (s : UCState) :
    Except DomainError Reservation × UCState :=
  let sorted := sortItems input.items
  let ttl := if input.ttl = 0 then cfg.defaultTTL else input.ttl
  match NewReservation sorted ttl now freshId with
  | .error e =>
    (.error e,
     if lockAcquired then { s with idem := kvDel input.idempotencyKey s.idem } else s)
  | .ok r =>
    match txReserveItems sorted s.inv with
    | .error e =>
      (.error e,
       if lockAcquired then { s with idem := kvDel input.idempotencyKey s.idem } else s)
    | .ok m' =>
      (.ok r,
       { inv := m'
       , reservations := s.reservations ++ [r]
       , idem :=
           if input.idempotencyKey ≠ "" then kvSet input.idempotencyKey (.rid r.id) s.idem
           else s.idem })

/-- `BatchReserveInventory` from usecase/inventory.go: validate the item
list; with an idempotency key, `SetNX` the "processing" marker — on a
lost lock, `Get` decides between the concurrent-duplicate error, a true
replay via the stored reservation id, and the error fallback; otherwise
proceed with the reservation under the acquired (or absent) lock. -/
def BatchReserveInventory (cfg : UCConfig) (now : Int) (freshId : Nat)
    (input : BatchReserveInput) (s : UCState) :
    Except DomainError Reservation × UCState :=
  if input.items = [] then (.error .invalidQuantity, s)
  else if input.items.length > cfg.maxBatchSize then (.error .batchSizeExceeded, s)
  else if input.idempotencyKey = "" then
    batchReserveLocked cfg now freshId input false s
  else
    match s.idem input.idempotencyKey with
    | some .processing => (.error .idempotencyKeyExists, s)
    | some (.rid i) =>
      match findResById i s.reservations with
      | some r => (.ok r, s)
      | none => (.error .reservationNotFound, s)
    | some .done => (.error .idempotencyKeyExists, s)
    | none =>
      batchReserveLocked cfg now freshId input true
        { s with idem := kvSet input.idempotencyKey .processing s.idem }

/-- `ConfirmReservation` from usecase/inventory.go: the confirm: marker
short-circuits; otherwise load, guard via the domain `Confirm`, decrement
quantity and reserved per item (pool-level), persist CONFIRMED, set the
marker. -/
def ConfirmReservation (now : Int) (resId : Nat) (idempotencyKey : String) (s : UCState) :
    Option DomainError × UCState :=
  if idempotencyKey ≠ "" ∧ (s.idem ("confirm:" ++ idempotencyKey)).isSome then (none, s)
  else
    match findResById resId s.reservations with
    | none => (some .reservationNotFound, s)
    | some r =>
      match r.Confirm now with
      | .error e => (some e, s)
      | .ok _ =>
        match runConfirmItems r.items s.inv with
        | (some e, m') => (some e, { s with inv := m' })
        | (none, m') =>
          match PostgresReservationRepository.UpdateStatus resId .confirmed now
              s.reservations with
          | .error e => (some e, { s with inv := m' })
          | .ok rs' =>
            (none,
             { inv := m', reservations := rs'
             , idem :=
                 if idempotencyKey ≠ "" then
                   kvSet ("confirm:" ++ idempotencyKey) .done s.idem
                 else s.idem })

/-- `ReleaseReservation` from usecase/inventory.go: the release: marker
short-circuits; otherwise load, guard via the domain `Release` (no expiry
check), decrement reserved per item (pool-level), persist RELEASED, set
the marker. -/
def ReleaseReservation (now : Int) (resId : Nat) (idempotencyKey : String) (s : UCState) :
    Option DomainError × UCState :=
  if idempotencyKey ≠ "" ∧ (s.idem ("release:" ++ idempotencyKey)).isSome then (none, s)
  else
    match findResById resId s.reservations with
    | none => (some .reservationNotFound, s)
    | some r =>
      match r.Release now with
      | .error e => (some e, s)
      | .ok _ =>
        match runReleaseItems r.items s.inv with
        | (some e, m') => (some e, { s with inv := m' })
        | (none, m') =>
          match PostgresReservationRepository.UpdateStatus resId .released now
              s.reservations with
          | .error e => (some e, { s with inv := m' })
          | .ok rs' =>
            (none,
             { inv := m', reservations := rs'
             , idem :=
                 if idempotencyKey ≠ "" then
                   kvSet ("release:" ++ idempotencyKey) .done s.idem
                 else s.idem })

end inventoryUseCase

/-- Concrete expired PENDING reservation used to evaluate C1: two items,
the second of which cannot release (reserved 3 < 5). -/
def c1Reservation : Reservation :=
  { id := 7, status := .pending
  , items := [{ skuID := 1, quantity := 5 }, { skuID := 2, quantity := 5 }]
  , expiresAt := 10, createdAt := 0, updatedAt := 0 }

/-- Concrete state for C1: SKU 1 holds the full reserved amount, SKU 2
holds less than the reservation's amount. -/
def c1State : UCState :=
  { inv := fun k =>
      if k = 1 then some { skuID := 1, quantity := 10, reserved := 5, version := 1 }
      else if k = 2 then some { skuID := 2, quantity := 10, reserved := 3, version := 1 }
      else none
  , reservations := [c1Reservation]
  , idem := fun _ => none }

/-- Concrete PENDING unexpired reservation for the C4 witness. -/
def c4Reservation : Reservation :=
  { id := 1, status := .pending, items := [{ skuID := 1, quantity := 2 }]
  , expiresAt := 100, createdAt := 0, updatedAt := 0 }

/-- Concrete state for the C4 witness. -/
def c4State : UCState :=
  { inv := fun k =>
      if k = 1 then some { skuID := 1, quantity := 10, reserved := 5, version := 1 } else none
  , reservations := [c4Reservation]
  , idem := fun _ => none }

/-- Concrete input and state for the C3 witness. -/
def c3Input : BatchReserveInput :=
  { items := [{ skuID := 1, quantity := 2 }], idempotencyKey := "K", ttl := 60 }

def c3State : UCState :=
  { inv := fun k =>
      if k = 1 then some { skuID := 1, quantity := 10, reserved := 0, version := 1 } else none
  , reservations := []
  , idem := fun _ => none }

def c3Cfg : UCConfig := { maxBatchSize := 50, defaultTTL := 900, idempotencyTTL := 86400 }

/-- The reservation the first C3 witness call creates. -/
def c3Res : Reservation :=
  { id := 42, status := .pending, items := [{ skuID := 1, quantity := 2 }]
  , expiresAt := 60, createdAt := 0, updatedAt := 0 }

/-- The state after the first C3 witness call. -/
def c3State1 : UCState :=
  (inventoryUseCase.BatchReserveInventory c3Cfg 0 42 c3Input c3State).2

/-! ## Theorems for claims C2 and C9 -/

/-- C2: every inventory operation preserves `quantity ≥ reserved ≥ 0`:
`NewInventory` establishes `reserved = 0 ∧ quantity ≥ 0` (hence the
invariant), and each of `Reserve`, `ConfirmReservation`,
`ReleaseReservation`, `SetQuantity` maps an invariant-satisfying state to
an invariant-satisfying state whenever it succeeds (on error no new state
is produced, i.e. the Go value is left unchanged). -/
theorem inventory_invariant_preserved (sk : Nat) (q amt : Int) (i i' : Inventory)
    (hi : i.Invariant) :
    (∀ j, NewInventory sk q = .ok j → j.reserved = 0 ∧ j.quantity ≥ 0 ∧ j.Invariant)
    ∧ (i.Reserve amt = .ok i' → i'.Invariant)
    ∧ (i.ConfirmReservation amt = .ok i' → i'.Invariant)
    ∧ (i.ReleaseReservation amt = .ok i' → i'.Invariant)
    ∧ (i.SetQuantity q = .ok i' → i'.Invariant) := by
  obtain ⟨h1, h2⟩ := hi
  refine ⟨?_, ?_, ?_, ?_, ?_⟩
  · intro j hj
    unfold NewInventory at hj
    split at hj
    · exact absurd hj (by simp)
    · cases hj
      refine ⟨rfl, ?_, ?_, ?_⟩ <;> simp [Inventory.Invariant] <;> omega
  · intro h
    unfold Inventory.Reserve at h
    split at h
    · exact absurd h (by simp)
    · split at h
      · exact absurd h (by simp)
      · cases h
        unfold Inventory.CanReserve Inventory.Available at *
        constructor <;> simp at * <;> omega
  · intro h
    unfold Inventory.ConfirmReservation at h
    split at h
    · exact absurd h (by simp)
    · split at h
      · exact absurd h (by simp)
      · cases h
        constructor <;> simp at * <;> omega
  · intro h
    unfold Inventory.ReleaseReservation at h
    split at h
    · exact absurd h (by simp)
    · split at h
      · exact absurd h (by simp)
      · cases h
        constructor <;> simp at * <;> omega
  · intro h
    unfold Inventory.SetQuantity at h
    split at h
    · exact absurd h (by simp)
    · split at h
      · exact absurd h (by simp)
      · cases h
        constructor <;> simp at * <;> omega

/-- Closed witness for C2 at a concrete inventory state. -/
theorem inventory_invariant_preserved_witness :
    (Inventory.Invariant { skuID := 1, quantity := 10, reserved := 3, version := 1 })
    ∧ ((Inventory.Reserve { skuID := 1, quantity := 10, reserved := 3, version := 1 } 2 =
          .ok { skuID := 1, quantity := 10, reserved := 5, version := 2 }) →
        Inventory.Invariant { skuID := 1, quantity := 10, reserved := 5, version := 2 }) := by
  refine ⟨by decide, ?_⟩
  intro _
  exact (inventory_invariant_preserved 1 10 2
    { skuID := 1, quantity := 10, reserved := 3, version := 1 }
    { skuID := 1, quantity := 10, reserved := 5, version := 2 } (by decide)).2.1 rfl

/-- C9: a reservation is created with status PENDING, and none of
`Confirm`, `Release`, `Expire` succeeds on a reservation whose status is
terminal (CONFIRMED, RELEASED or EXPIRED) — each returns an error, so the
stored aggregate is left unchanged. -/
theorem reservation_state_machine (r : Reservation) (now ttl t : Int) (fid : Nat)
    (items : List ReservationItem) (hfin : r.status.IsFinal = true) :
    (∀ r0, NewReservation items ttl t fid = .ok r0 → r0.status = .pending)
    ∧ (∃ e, r.Confirm now = .error e)
    ∧ (∃ e, r.Release now = .error e)
    ∧ (∃ e, r.Expire now = .error e) := by
  have hs : r.status = .confirmed ∨ r.status = .released ∨ r.status = .expired := by
    unfold ReservationStatus.IsFinal at hfin
    simpa using hfin
  have hnp : r.status ≠ .pending := by
    rcases hs with h | h | h <;> simp [h]
  refine ⟨?_, ?_, ?_, ?_⟩
  · intro r0 h0
    unfold NewReservation at h0
    split at h0
    · exact absurd h0 (by simp)
    · split at h0
      · exact absurd h0 (by simp)
      · cases h0; rfl
  · unfold Reservation.Confirm Reservation.CanConfirm Reservation.IsPending
    simp [hnp]
    split <;> simp
  · unfold Reservation.Release Reservation.CanRelease Reservation.IsPending
    simp [hnp]
  · unfold Reservation.Expire
    simp [hnp]

/-- Closed witness for C9 on a concrete CONFIRMED reservation. -/
theorem reservation_state_machine_witness :
    (ReservationStatus.IsFinal .confirmed = true)
    ∧ (∃ e, Reservation.Confirm
        { id := 1, status := .confirmed, items := [{ skuID := 1, quantity := 2 }]
        , expiresAt := 100, createdAt := 0, updatedAt := 0 } 50 = .error e) := by
  refine ⟨by decide, ?_⟩
  exact (reservation_state_machine
    { id := 1, status := .confirmed, items := [{ skuID := 1, quantity := 2 }]
    , expiresAt := 100, createdAt := 0, updatedAt := 0 } 50 10 0 7 [] (by decide)).2.1


/-! ## Theorems for claim C5 -/

/-- The boolean returned by `RecordFailure` is exactly "the incremented
counter reaches the threshold". -/
theorem RateLimiter.recordFailure_fst (cfg : RateLimitConfig) (st : RLState) (now : Int)
    (ip : String) :
    (RateLimiter.RecordFailure cfg st now ip).1 =
      decide ((RateLimiter.entryAfterResets cfg now
          ((st ip).getD { failureCount := 0, windowStart := now, cooldownUntil := none })).failureCount
        + 1 ≥ cfg.failureThreshold) := by
  unfold RateLimiter.RecordFailure
  dsimp only
  split
  · next h => simp [h]
  · next h => simp [h]

/-- The entry stored under `ip` after `RecordFailure`. -/
theorem RateLimiter.recordFailure_entry (cfg : RateLimitConfig) (st : RLState) (now : Int)
    (ip : String) :
    (RateLimiter.RecordFailure cfg st now ip).2 ip =
      some { failureCount := (RateLimiter.entryAfterResets cfg now
                ((st ip).getD { failureCount := 0, windowStart := now, cooldownUntil := none })).failureCount + 1
           , windowStart := (RateLimiter.entryAfterResets cfg now
                ((st ip).getD { failureCount := 0, windowStart := now, cooldownUntil := none })).windowStart
           , cooldownUntil :=
              if (RateLimiter.entryAfterResets cfg now
                    ((st ip).getD { failureCount := 0, windowStart := now, cooldownUntil := none })).failureCount
                  + 1 ≥ cfg.failureThreshold
              then some (now + cfg.cooldown)
              else (RateLimiter.entryAfterResets cfg now
                    ((st ip).getD { failureCount := 0, windowStart := now, cooldownUntil := none })).cooldownUntil } := by
  unfold RateLimiter.RecordFailure
  dsimp only
  split
  · next h => simp [h]
  · next h => simp [h]

/-- C5 counterexample: `RecordFailure` does NOT return true only on the
transition to rate-limited. With threshold 2, after the second failure at
t = 1 the IP is rate-limited (cooldown until 101), yet a third failure at
t = 2 — while already rate-limited — returns true again. -/
theorem recordFailure_true_not_only_on_transition :
    let cfg : RateLimitConfig := { failureThreshold := 2, window := 100, cooldown := 100 }
    let st1 := (RateLimiter.RecordFailure cfg (fun _ => none) 0 "ip").2
    let st2 := (RateLimiter.RecordFailure cfg st1 1 "ip").2
    (RateLimiter.RecordFailure cfg (fun _ => none) 0 "ip").1 = false
    ∧ (RateLimiter.RecordFailure cfg st1 1 "ip").1 = true
    ∧ RateLimiter.IsRateLimited st2 2 "ip" = true
    ∧ (RateLimiter.RecordFailure cfg st2 2 "ip").1 = true := by
  exact ⟨rfl, rfl, rfl, rfl⟩

/-- C5 (amended): `recordFailure(ip)` resets all state when a set cooldown
has passed, resets counter and window start when the window has lapsed,
then increments the counter; it sets `cooldown-until := now + cooldown`
and returns true whenever the incremented counter reaches the threshold —
including calls made while the IP is already rate-limited, so true is not
exclusive to the transition into the rate-limited state. Whenever it
returns true, the cooldown is in the future for the whole cooldown
interval and the stored counter is at least the threshold. -/
theorem recordFailure_behavior (cfg : RateLimitConfig) (st : RLState) (now : Int)
    (ip : String) (e : IpState) (c : Int)
    (hwin : 0 ≤ cfg.window) :
    ((RateLimiter.RecordFailure cfg st now ip).1 = true ↔
      RateLimiter.GetFailureCount (RateLimiter.RecordFailure cfg st now ip).2 ip ≥
        cfg.failureThreshold)
    ∧ ((RateLimiter.RecordFailure cfg st now ip).1 = true →
        ∃ s, (RateLimiter.RecordFailure cfg st now ip).2 ip = some s ∧
          s.cooldownUntil = some (now + cfg.cooldown))
    ∧ ((RateLimiter.RecordFailure cfg st now ip).1 = true →
        ∀ t, now ≤ t → t < now + cfg.cooldown →
          RateLimiter.IsRateLimited (RateLimiter.RecordFailure cfg st now ip).2 t ip = true)
    ∧ (st ip = none →
        RateLimiter.GetFailureCount (RateLimiter.RecordFailure cfg st now ip).2 ip = 1)
    ∧ (st ip = some e → e.cooldownUntil = some c → now > c →
        RateLimiter.GetFailureCount (RateLimiter.RecordFailure cfg st now ip).2 ip = 1)
    ∧ (st ip = some e →
        (e.cooldownUntil = none ∨ ∃ c', e.cooldownUntil = some c' ∧ ¬ now > c') →
        now - e.windowStart > cfg.window →
        RateLimiter.GetFailureCount (RateLimiter.RecordFailure cfg st now ip).2 ip = 1)
    ∧ (st ip = some e →
        (e.cooldownUntil = none ∨ ∃ c', e.cooldownUntil = some c' ∧ ¬ now > c') →
        ¬ (now - e.windowStart > cfg.window) →
        RateLimiter.GetFailureCount (RateLimiter.RecordFailure cfg st now ip).2 ip =
          e.failureCount + 1) := by
  have hfst := RateLimiter.recordFailure_fst cfg st now ip
  have hsnd := RateLimiter.recordFailure_entry cfg st now ip
  have hcount : RateLimiter.GetFailureCount (RateLimiter.RecordFailure cfg st now ip).2 ip =
      (RateLimiter.entryAfterResets cfg now
        ((st ip).getD { failureCount := 0, windowStart := now, cooldownUntil := none })).failureCount + 1 := by
    unfold RateLimiter.GetFailureCount
    rw [hsnd]
  refine ⟨?_, ?_, ?_, ?_, ?_, ?_, ?_⟩
  · rw [hfst, hcount]
    simp
  · intro hb
    rw [hfst] at hb
    simp only [decide_eq_true_eq] at hb
    refine ⟨_, hsnd, ?_⟩
    simp [if_pos hb]
  · intro hb t _ ht2
    rw [hfst] at hb
    simp only [decide_eq_true_eq] at hb
    unfold RateLimiter.IsRateLimited
    rw [hsnd]
    simp [if_pos hb]
    omega
  · intro hnone
    rw [hcount, hnone]
    unfold RateLimiter.entryAfterResets
    dsimp only [Option.getD_none]
    rw [if_neg (by omega)]
    simp
  · intro hsome hcd hgt
    rw [hcount, hsome]
    unfold RateLimiter.entryAfterResets
    dsimp only [Option.getD_some]
    rw [hcd]
    dsimp only
    rw [if_pos hgt]
    dsimp only
    rw [if_neg (by omega)]
    simp
  · intro hsome hcd hw
    rw [hcount, hsome]
    unfold RateLimiter.entryAfterResets
    dsimp only [Option.getD_some]
    rcases hcd with h | ⟨c', hc', hnc⟩
    · rw [h]
      dsimp only
      rw [if_pos hw]
      simp
    · rw [hc']
      dsimp only
      rw [if_neg hnc]
      rw [if_pos hw]
      simp
  · intro hsome hcd hw
    rw [hcount, hsome]
    unfold RateLimiter.entryAfterResets
    dsimp only [Option.getD_some]
    rcases hcd with h | ⟨c', hc', hnc⟩
    · rw [h]
      dsimp only
      rw [if_neg hw]
    · rw [hc']
      dsimp only
      rw [if_neg hnc]
      rw [if_neg hw]

/-- Closed witness for the amended C5 at a concrete call that trips the
threshold on a fresh IP. -/
theorem recordFailure_behavior_witness :
    (RateLimiter.RecordFailure { failureThreshold := 1, window := 60, cooldown := 300 }
        (fun _ => none) 0 "10.0.0.1").1 = true
    ∧ RateLimiter.GetFailureCount
        (RateLimiter.RecordFailure { failureThreshold := 1, window := 60, cooldown := 300 }
          (fun _ => none) 0 "10.0.0.1").2 "10.0.0.1" ≥ 1 :=
  ⟨rfl,
   (recordFailure_behavior { failureThreshold := 1, window := 60, cooldown := 300 }
     (fun _ => none) 0 "10.0.0.1" { failureCount := 0, windowStart := 0, cooldownUntil := none }
     0 (by decide)).1.mp rfl⟩


/-! ## Theorems for claim C8 -/

/-- C8: `CanAccessUser` returns UNAUTHENTICATED exactly when no subject is
present; otherwise it allows when the space-separated scope string
contains the literal token "admin"; otherwise it allows exactly the
subject itself and denies everything else — and an allowed cross-subject
access implies the literal "admin" token is among the scopes. -/
theorem canAccessUser_spec (cur tgt scopes : String) :
    (cur = "" → Authorizer.CanAccessUser cur tgt scopes = .unauthenticated)
    ∧ (cur ≠ "" → "admin" ∈ goSplit scopes ' ' →
        Authorizer.CanAccessUser cur tgt scopes = .allow)
    ∧ (cur ≠ "" → cur = tgt → Authorizer.CanAccessUser cur tgt scopes = .allow)
    ∧ (cur ≠ "" → "admin" ∉ goSplit scopes ' ' → cur ≠ tgt →
        Authorizer.CanAccessUser cur tgt scopes = .permissionDenied)
    ∧ (cur ≠ "" → cur ≠ tgt → Authorizer.CanAccessUser cur tgt scopes = .allow →
        "admin" ∈ goSplit scopes ' ') := by
  have hscope_mem : ∀ sc : String, Authorizer.HasScope sc "admin" = true →
      "admin" ∈ goSplit sc ' ' := by
    intro sc hsc
    unfold Authorizer.HasScope at hsc
    by_cases hs : sc = ""
    · rw [if_pos hs] at hsc
      exact absurd hsc (by simp)
    · rw [if_neg hs] at hsc
      rw [List.any_eq_true] at hsc
      obtain ⟨x, hx, hdx⟩ := hsc
      rw [decide_eq_true_eq] at hdx
      exact hdx ▸ hx
  have hmem_scope : ∀ sc : String, "admin" ∈ goSplit sc ' ' →
      Authorizer.HasScope sc "admin" = true := by
    intro sc hmem
    have hne : sc ≠ "" := by
      intro he
      rw [he] at hmem
      exact absurd hmem (by decide)
    unfold Authorizer.HasScope
    rw [if_neg hne, List.any_eq_true]
    exact ⟨"admin", hmem, by simp⟩
  refine ⟨?_, ?_, ?_, ?_, ?_⟩
  · intro h
    unfold Authorizer.CanAccessUser
    rw [if_pos h]
  · intro h hmem
    unfold Authorizer.CanAccessUser
    rw [if_neg h, if_pos (hmem_scope scopes hmem)]
  · intro h heq
    unfold Authorizer.CanAccessUser
    rw [if_neg h]
    by_cases hs : Authorizer.HasScope scopes "admin" = true
    · rw [if_pos hs]
    · rw [if_neg hs, if_neg (not_not_intro heq)]
  · intro h hmem hnt
    have hsc : ¬ Authorizer.HasScope scopes "admin" = true := by
      intro hx
      exact hmem (hscope_mem scopes hx)
    unfold Authorizer.CanAccessUser
    rw [if_neg h, if_neg hsc, if_pos hnt]
  · intro h hnt hres
    by_cases hs : Authorizer.HasScope scopes "admin" = true
    · exact hscope_mem scopes hs
    · exfalso
      unfold Authorizer.CanAccessUser at hres
      rw [if_neg h, if_neg hs, if_pos hnt] at hres
      exact absurd hres (by simp)

/-- Closed witness for C8: a non-admin subject is denied access to another
subject's resource. -/
theorem canAccessUser_spec_witness :
    Authorizer.CanAccessUser "user-123" "user-456" "read" = .permissionDenied :=
  (canAccessUser_spec "user-123" "user-456" "read").2.2.2.1
    (by decide) (by decide) (by decide)


/-! ## Theorems for claims C6, C7, C10 -/

/-- Helper: once parsing, kid extraction and key resolution succeed and
the resolved key does not carry a non-RS256 signature algorithm,
`Validate` reduces to the verify-and-validate tail. -/
theorem Validator.validate_eq_verifyParsed (cfg : ValidatorConfig) (keys : List JWK)
    (t : Token) (kid : String) (key : JWK)
    (hparse : t.parseInsecureOk = true)
    (hkid : t.kidHeader = some kid) (hk : kid ≠ "")
    (hfind : keys.find? (fun k => k.kid = kid) = some key)
    (halg : ∀ a, key.alg = some (.sig a) → a = "RS256") :
    Validator.Validate cfg keys t = Validator.verifyParsed cfg t := by
  unfold Validator.Validate
  rw [hparse, hkid]
  dsimp only
  rw [if_neg hk, hfind]
  dsimp only
  cases hame : key.alg with
  | none => rfl
  | some ka =>
    cases ka with
    | sig a =>
      dsimp only
      rw [if_neg (not_not_intro (halg a hame))]
    | nonsig a => rfl

/-- C6 counterexample: an otherwise-valid token whose header carries NO
algorithm (`algHeader = none`, and the resolved JWKS key carries no
algorithm either) is ACCEPTED: `Validate` returns the extracted claims
rather than failing with `InvalidAlgorithmError`, because the code only
rejects a key-supplied signature algorithm different from RS256 and never
reads the algorithm from the token. -/
theorem validate_missing_algorithm_not_rejected :
    Validator.Validate
      { issuer := "https://idp.example.com/", audience := "aud", clockSkew := 30 }
      [{ kid := "kid1", alg := none }]
      { parseInsecureOk := true, kidHeader := some "kid1", algHeader := none
      , sub := "user-123", iss := "https://idp.example.com/", aud := ["aud"]
      , expVal := 1000, iatVal := 0, scope := .str "read", outcome := .ok }
      = .ok { subject := "user-123", scopes := ["read"], expiresAt := 1000, issuedAt := 0 } := by
  rfl

/-- C6 (amended): the pre-verification algorithm check inspects the KEY
resolved from the JWKS, not the token header: when that key carries a
signature algorithm other than RS256, `Validate` fails with
`InvalidAlgorithmError` whatever the verification outcome (the check
precedes signature verification); a key carrying no algorithm, or a
non-signature algorithm, is not rejected by this check, and an
otherwise-valid token then validates successfully. -/
theorem validate_algorithm_check (cfg : ValidatorConfig) (keys : List JWK) (t : Token)
    (kid : String) (key : JWK) (a : String)
    (hparse : t.parseInsecureOk = true)
    (hkid : t.kidHeader = some kid) (hk : kid ≠ "")
    (hfind : keys.find? (fun k => k.kid = kid) = some key) :
    (key.alg = some (.sig a) → a ≠ "RS256" →
        Validator.Validate cfg keys t = .error (.invalidAlgorithm a))
    ∧ (key.alg = none → t.outcome = .ok →
        Validator.Validate cfg keys t =
          .ok { subject := t.sub, scopes := extractScopes t.scope
              , expiresAt := t.expVal, issuedAt := t.iatVal })
    ∧ (key.alg = some (.nonsig a) → t.outcome = .ok →
        Validator.Validate cfg keys t =
          .ok { subject := t.sub, scopes := extractScopes t.scope
              , expiresAt := t.expVal, issuedAt := t.iatVal }) := by
  refine ⟨?_, ?_, ?_⟩
  · intro h1 h2
    unfold Validator.Validate
    rw [hparse, hkid]
    dsimp only
    rw [if_neg hk, hfind]
    dsimp only
    rw [h1]
    dsimp only
    rw [if_pos h2]
  · intro h1 h2
    rw [Validator.validate_eq_verifyParsed cfg keys t kid key hparse hkid hk hfind
      (fun b hb => absurd (h1 ▸ hb) (by simp))]
    unfold Validator.verifyParsed
    rw [h2]
  · intro h1 h2
    rw [Validator.validate_eq_verifyParsed cfg keys t kid key hparse hkid hk hfind
      (fun b hb => by rw [h1] at hb; exact absurd hb (by simp))]
    unfold Validator.verifyParsed
    rw [h2]

/-- Closed witness for the amended C6: a key carrying the signature
algorithm RS512 is rejected with `InvalidAlgorithmError` before
verification. -/
theorem validate_algorithm_check_witness :
    Validator.Validate
      { issuer := "iss", audience := "aud", clockSkew := 30 }
      [{ kid := "k2", alg := some (.sig "RS512") }]
      { parseInsecureOk := true, kidHeader := some "k2", algHeader := some "RS512"
      , sub := "u", iss := "iss", aud := ["aud"], expVal := 10, iatVal := 0
      , scope := .absent, outcome := .ok }
      = .error (.invalidAlgorithm "RS512") :=
  (validate_algorithm_check
    { issuer := "iss", audience := "aud", clockSkew := 30 }
    [{ kid := "k2", alg := some (.sig "RS512") }]
    { parseInsecureOk := true, kidHeader := some "k2", algHeader := some "RS512"
    , sub := "u", iss := "iss", aud := ["aud"], expVal := 10, iatVal := 0
    , scope := .absent, outcome := .ok }
    "k2" { kid := "k2", alg := some (.sig "RS512") } "RS512"
    rfl rfl (by decide) rfl).1 rfl (by decide)

/-- C7 counterexample: the failure taxonomy is NOT the claimed closed set
of seven tagged kinds. A not-before violation surfaces as an UNTAGGED
generic error on which every public predicate is false (there is no
NotYetValid kind), and a parse failure surfaces as `InvalidSignatureError`
(there is no ParseFailure kind). -/
theorem validate_taxonomy_counterexample :
    (Validator.Validate
      { issuer := "iss", audience := "aud", clockSkew := 30 }
      [{ kid := "k1", alg := some (.sig "RS256") }]
      { parseInsecureOk := true, kidHeader := some "k1", algHeader := some "RS256"
      , sub := "u", iss := "iss", aud := ["aud"], expVal := 10, iatVal := 0
      , scope := .absent, outcome := .notYetValid }
      = .error (.generic "token not yet valid: nbf claim validation failed"))
    ∧ IsTokenExpiredError (.generic "token not yet valid: nbf claim validation failed") = false
    ∧ IsInvalidIssuerError (.generic "token not yet valid: nbf claim validation failed") = false
    ∧ IsInvalidAudienceError (.generic "token not yet valid: nbf claim validation failed") = false
    ∧ IsInvalidSignatureError (.generic "token not yet valid: nbf claim validation failed") = false
    ∧ IsInvalidAlgorithmError (.generic "token not yet valid: nbf claim validation failed") = false
    ∧ (Validator.Validate
      { issuer := "iss", audience := "aud", clockSkew := 30 }
      [{ kid := "k1", alg := some (.sig "RS256") }]
      { parseInsecureOk := false, kidHeader := some "k1", algHeader := some "RS256"
      , sub := "u", iss := "iss", aud := ["aud"], expVal := 10, iatVal := 0
      , scope := .absent, outcome := .ok }
      = .error (.invalidSignature "failed to parse token")) := by
  exact ⟨rfl, rfl, rfl, rfl, rfl, rfl, rfl⟩

/-- C7 (amended): every error returned by `Validate` is one of the five
tagged kinds TokenExpired, InvalidIssuer, InvalidAudience,
InvalidSignature, InvalidAlgorithm, or an untagged generic error; each of
the five public predicates identifies exactly its kind without string
matching; a parse failure surfaces as InvalidSignature, and a not-before
violation surfaces as an untagged generic error on which all five
predicates are false. -/
theorem verror_taxonomy (cfg : ValidatorConfig) (keys : List JWK) (t : Token) (e : VError) :
    (IsTokenExpiredError e = true ↔ ∃ x, e = .tokenExpired x)
    ∧ (IsInvalidIssuerError e = true ↔ ∃ x y, e = .invalidIssuer x y)
    ∧ (IsInvalidAudienceError e = true ↔ ∃ x y, e = .invalidAudience x y)
    ∧ (IsInvalidSignatureError e = true ↔ ∃ x, e = .invalidSignature x)
    ∧ (IsInvalidAlgorithmError e = true ↔ ∃ x, e = .invalidAlgorithm x)
    ∧ (t.parseInsecureOk = false →
        Validator.Validate cfg keys t = .error (.invalidSignature "failed to parse token"))
    ∧ (Validator.mapValidationError cfg t .notYetValid =
        .generic "token not yet valid: nbf claim validation failed")
    ∧ (∀ m, IsTokenExpiredError (.generic m) = false
        ∧ IsInvalidIssuerError (.generic m) = false
        ∧ IsInvalidAudienceError (.generic m) = false
        ∧ IsInvalidSignatureError (.generic m) = false
        ∧ IsInvalidAlgorithmError (.generic m) = false) := by
  refine ⟨?_, ?_, ?_, ?_, ?_, ?_, rfl, ?_⟩
  · cases e <;> simp [IsTokenExpiredError]
  · cases e <;> simp [IsInvalidIssuerError]
  · cases e <;> simp [IsInvalidAudienceError]
  · cases e <;> simp [IsInvalidSignatureError]
  · cases e <;> simp [IsInvalidAlgorithmError]
  · intro hp
    unfold Validator.Validate
    rw [hp]
  · intro m
    exact ⟨rfl, rfl, rfl, rfl, rfl⟩

/-- Closed witness for the amended C7: the expiry predicate recognizes a
tagged expiry error, and a parse failure maps to InvalidSignature. -/
theorem verror_taxonomy_witness :
    (∃ x, (VError.tokenExpired 42) = .tokenExpired x)
    ∧ Validator.Validate { issuer := "i", audience := "a", clockSkew := 0 } []
        { parseInsecureOk := false, kidHeader := none, algHeader := none
        , sub := "", iss := "", aud := [], expVal := 0, iatVal := 0
        , scope := .absent, outcome := .ok }
        = .error (.invalidSignature "failed to parse token") := by
  constructor
  · exact (verror_taxonomy { issuer := "i", audience := "a", clockSkew := 0 } []
      { parseInsecureOk := false, kidHeader := none, algHeader := none
      , sub := "", iss := "", aud := [], expVal := 0, iatVal := 0
      , scope := .absent, outcome := .ok } (.tokenExpired 42)).1.mp rfl
  · exact (verror_taxonomy { issuer := "i", audience := "a", clockSkew := 0 } []
      { parseInsecureOk := false, kidHeader := none, algHeader := none
      , sub := "", iss := "", aud := [], expVal := 0, iatVal := 0
      , scope := .absent, outcome := .ok } (.tokenExpired 42)).2.2.2.2.2.1 rfl

/-- C10: an otherwise-valid token with no "scope" claim, or with a
non-string "scope" claim, validates successfully with an empty scope
sequence; an empty string claim also yields no scopes; and only a
non-empty string claim is split on single spaces into scope tokens. -/
theorem validate_scope_extraction (cfg : ValidatorConfig) (keys : List JWK) (t : Token)
    (kid : String) (key : JWK) (s : String)
    (hparse : t.parseInsecureOk = true)
    (hkid : t.kidHeader = some kid) (hk : kid ≠ "")
    (hfind : keys.find? (fun k => k.kid = kid) = some key)
    (halg : ∀ a, key.alg = some (.sig a) → a = "RS256")
    (hout : t.outcome = .ok) :
    (t.scope = .absent → Validator.Validate cfg keys t =
        .ok { subject := t.sub, scopes := [], expiresAt := t.expVal, issuedAt := t.iatVal })
    ∧ (t.scope = .notString → Validator.Validate cfg keys t =
        .ok { subject := t.sub, scopes := [], expiresAt := t.expVal, issuedAt := t.iatVal })
    ∧ (t.scope = .str "" → Validator.Validate cfg keys t =
        .ok { subject := t.sub, scopes := [], expiresAt := t.expVal, issuedAt := t.iatVal })
    ∧ (t.scope = .str s → s ≠ "" → Validator.Validate cfg keys t =
        .ok { subject := t.sub, scopes := goSplit s ' '
            , expiresAt := t.expVal, issuedAt := t.iatVal }) := by
  have hv := Validator.validate_eq_verifyParsed cfg keys t kid key hparse hkid hk hfind halg
  refine ⟨?_, ?_, ?_, ?_⟩
  · intro hs
    rw [hv]
    unfold Validator.verifyParsed
    rw [hout]
    dsimp only
    rw [hs]
    rfl
  · intro hs
    rw [hv]
    unfold Validator.verifyParsed
    rw [hout]
    dsimp only
    rw [hs]
    rfl
  · intro hs
    rw [hv]
    unfold Validator.verifyParsed
    rw [hout]
    dsimp only
    rw [hs]
    rfl
  · intro hs hne
    rw [hv]
    unfold Validator.verifyParsed
    rw [hout]
    dsimp only
    rw [hs]
    unfold extractScopes
    dsimp only
    rw [if_neg hne]

/-- Closed witness for C10: a token without a "scope" claim is accepted
with no scopes. -/
theorem validate_scope_extraction_witness :
    Validator.Validate { issuer := "iss", audience := "aud", clockSkew := 30 }
      [{ kid := "k1", alg := some (.sig "RS256") }]
      { parseInsecureOk := true, kidHeader := some "k1", algHeader := some "RS256"
      , sub := "u7", iss := "iss", aud := ["aud"], expVal := 99, iatVal := 1
      , scope := .absent, outcome := .ok }
      = .ok { subject := "u7", scopes := [], expiresAt := 99, issuedAt := 1 } :=
  (validate_scope_extraction { issuer := "iss", audience := "aud", clockSkew := 30 }
    [{ kid := "k1", alg := some (.sig "RS256") }]
    { parseInsecureOk := true, kidHeader := some "k1", algHeader := some "RS256"
    , sub := "u7", iss := "iss", aud := ["aud"], expVal := 99, iatVal := 1
    , scope := .absent, outcome := .ok }
    "k1" { kid := "k1", alg := some (.sig "RS256") } "x"
    rfl rfl (by decide) rfl (fun a ha => by cases ha; rfl) rfl).1 rfl


/-! ## Theorems for claims C1, C3, C4 -/

/-- C1 (code bug): `txManager.Do` begins a pool transaction but hands
`fn` the original ctx, so the expirer's per-item releases and status
update run auto-committed on the pool, outside the begun transaction. At
this concrete input the second item's release fails and the call returns
an error, yet the first item's release persists (reserved 5 → 0, version
bumped) while the reservation's status is still PENDING — a partial
effect the claim says is rolled back. -/
theorem expireReservation_partial_effect_persists :
    (txManagerDo (ReservationExpirer.expireReservation 100 c1Reservation) c1State).1 =
      some .invalidReserved
    ∧ (txManagerDo (ReservationExpirer.expireReservation 100 c1Reservation) c1State).2.inv 1 =
      some { skuID := 1, quantity := 10, reserved := 0, version := 2 }
    ∧ findResById 7
        (txManagerDo
          (ReservationExpirer.expireReservation 100 c1Reservation) c1State).2.reservations =
      some c1Reservation := by
  exact ⟨rfl, rfl, rfl⟩

/-- Helper: `find?` skips an appended prefix in which it finds nothing. -/
theorem find_append_of_none {α : Type} (p : α → Bool) (l1 l2 : List α)
    (h : l1.find? p = none) : (l1 ++ l2).find? p = l2.find? p := by
  induction l1 with
  | nil => rfl
  | cons a as ih =>
    rw [List.cons_append]
    simp only [List.find?] at h ⊢
    cases hpa : p a with
    | true =>
      rw [hpa] at h
      exact absurd h (by simp)
    | false =>
      rw [hpa] at h
      dsimp only at h ⊢
      exact ih h

/-- Helper: `find?` commutes with a map that leaves the predicate value of
every element unchanged. -/
theorem find_map_eqpred {α : Type} (p : α → Bool) (f : α → α)
    (hpf : ∀ x, p (f x) = p x) (l : List α) (r : α)
    (h : l.find? p = some r) : (l.map f).find? p = some (f r) := by
  induction l with
  | nil => exact absurd h (by simp)
  | cons a as ih =>
    simp only [List.find?] at h
    simp only [List.map_cons, List.find?, hpf a]
    cases hpa : p a with
    | true =>
      rw [hpa] at h
      dsimp only at h ⊢
      have hra : a = r := by simpa using h
      rw [hra]
    | false =>
      rw [hpa] at h
      dsimp only at h ⊢
      exact ih h

/-- Helper: `find?`-by-id over the row-update map of `UpdateStatus`. -/
theorem find_map_update (rs : List Reservation) (resId : Nat) (r : Reservation)
    (st : ReservationStatus) (now : Int)
    (h : rs.find? (fun x => x.id = resId) = some r) :
    (rs.map (fun x => if x.id = resId then { x with status := st, updatedAt := now } else x)).find?
        (fun x => x.id = resId) =
      some { r with status := st, updatedAt := now } := by
  have hfs := List.find?_some (p := fun x : Reservation => decide (x.id = resId)) h
  have hrid : r.id = resId := by simpa using hfs
  have hpf : ∀ x : Reservation,
      (fun y : Reservation => decide (y.id = resId))
        ((fun y : Reservation =>
          if y.id = resId then { y with status := st, updatedAt := now } else y) x) =
      (fun y : Reservation => decide (y.id = resId)) x := by
    intro x
    dsimp only
    by_cases hx : x.id = resId
    · rw [if_pos hx]
    · rw [if_neg hx]
  have := find_map_eqpred (fun y : Reservation => decide (y.id = resId))
    (fun y : Reservation => if y.id = resId then { y with status := st, updatedAt := now } else y)
    hpf rs r h
  rw [this]
  dsimp only
  rw [if_pos hrid]

/-- Helper: the pool-level per-item loop, when every item's SKU row holds
enough reserved stock and the SKUs are pairwise distinct, succeeds,
applies the row update once per item and touches no other row. -/
theorem runItemsLoop_spec (f : Inventory → Int → Inventory) (items : List ReservationItem)
    (m : InvMap)
    (hnd : (items.map (fun it => it.skuID)).Nodup)
    (hall : ∀ it ∈ items, ∃ i, m it.skuID = some i ∧ i.reserved ≥ it.quantity) :
    (runItemsLoop f items m).1 = none
    ∧ (∀ it ∈ items, ∃ i, m it.skuID = some i ∧
        (runItemsLoop f items m).2 it.skuID = some (f i it.quantity))
    ∧ (∀ k, k ∉ items.map (fun it => it.skuID) → (runItemsLoop f items m).2 k = m k) := by
  induction items generalizing m with
  | nil =>
    refine ⟨rfl, by simp, ?_⟩
    intro k _
    rfl
  | cons it rest ih =>
    obtain ⟨i, hmi, hge⟩ := hall it (by simp)
    have hstep : poolGuardedUpdate f it.skuID it.quantity m =
        .ok (invSet it.skuID (f i it.quantity) m) := by
      unfold poolGuardedUpdate
      rw [hmi]
      dsimp only
      rw [if_pos hge]
    have hrun : runItemsLoop f (it :: rest) m =
        runItemsLoop f rest (invSet it.skuID (f i it.quantity) m) := by
      simp only [runItemsLoop, hstep]
    have hnd' := hnd
    rw [List.map_cons, List.nodup_cons] at hnd'
    obtain ⟨hnotin, hndrest⟩ := hnd'
    have hall' : ∀ it' ∈ rest, ∃ i', (invSet it.skuID (f i it.quantity) m) it'.skuID = some i' ∧
        i'.reserved ≥ it'.quantity := by
      intro it' hit'
      obtain ⟨i', hmi', hge'⟩ := hall it' (by simp [hit'])
      have hsk : it'.skuID ≠ it.skuID := by
        intro he
        exact hnotin (he ▸ List.mem_map_of_mem (fun x => x.skuID) hit')
      exact ⟨i', by unfold invSet; rw [if_neg hsk]; exact hmi', hge'⟩
    obtain ⟨ih1, ih2, ih3⟩ :=
      ih (invSet it.skuID (f i it.quantity) m) hndrest hall'
    refine ⟨?_, ?_, ?_⟩
    · rw [hrun]; exact ih1
    · intro it' hit'
      rcases List.mem_cons.mp hit' with he | hmem
      · subst he
        refine ⟨i, hmi, ?_⟩
        rw [hrun, ih3 it'.skuID hnotin]
        unfold invSet
        rw [if_pos rfl]
      · obtain ⟨i', hmi', hfin⟩ := ih2 it' hmem
        have hsk : it'.skuID ≠ it.skuID := by
          intro he
          exact hnotin (he ▸ List.mem_map_of_mem (fun x => x.skuID) hmem)
        refine ⟨i', ?_, ?_⟩
        · have : (invSet it.skuID (f i it.quantity) m) it'.skuID = m it'.skuID := by
            unfold invSet; rw [if_neg hsk]
          rw [← this]; exact hmi'
        · rw [hrun]; exact hfin
    · intro k hk
      have hk1 : k ≠ it.skuID := by
        intro he; exact hk (by simp [he])
      have hk2 : k ∉ rest.map (fun x => x.skuID) := by
        intro hin; exact hk (by simp [hin])
      rw [hrun, ih3 k hk2]
      unfold invSet
      rw [if_neg hk1]

/-- C4: the Confirm/Release asymmetry about expiry at the use-case layer
(empty idempotency key, so the markers are not consulted). Confirm on a
loaded reservation is rejected with ReservationExpired whenever it is
expired, with ReservationNotPending when it is not expired but not
PENDING — the state unchanged; on success (PENDING, not expired, every
SKU row holding the reserved amounts, pairwise-distinct SKUs) it
decrements BOTH quantity and reserved by each item quantity, bumps the
version, touches no other row, and persists status CONFIRMED. Release is
rejected ONLY when the status is not PENDING — expiry is never checked,
so an expired PENDING reservation is still releasable — and on success
decrements reserved ONLY (quantity unchanged in the updated row), bumps
the version and persists RELEASED. -/
theorem confirm_release_asymmetry (now : Int) (resId : Nat) (s : UCState) (r : Reservation)
    (hfound : findResById resId s.reservations = some r)
    (hnd : (r.items.map (fun it => it.skuID)).Nodup)
    (hall : ∀ it ∈ r.items, ∃ i, s.inv it.skuID = some i ∧ i.reserved ≥ it.quantity) :
    (r.IsExpired now = true → r.status = .pending →
      inventoryUseCase.ConfirmReservation now resId "" s = (some .reservationExpired, s))
    ∧ (r.IsExpired now = true → r.status ≠ .pending →
      inventoryUseCase.ConfirmReservation now resId "" s = (some .reservationExpired, s))
    ∧ (r.IsExpired now = false → r.status ≠ .pending →
      inventoryUseCase.ConfirmReservation now resId "" s = (some .reservationNotPending, s))
    ∧ (r.IsExpired now = false → r.status = .pending →
        (inventoryUseCase.ConfirmReservation now resId "" s).1 = none
        ∧ findResById resId
            (inventoryUseCase.ConfirmReservation now resId "" s).2.reservations =
            some { r with status := .confirmed, updatedAt := now }
        ∧ (∀ it ∈ r.items, ∃ i, s.inv it.skuID = some i ∧
            (inventoryUseCase.ConfirmReservation now resId "" s).2.inv it.skuID =
              some { i with quantity := i.quantity - it.quantity, reserved := i.reserved - it.quantity, version := i.version + 1 })
        ∧ (∀ k, k ∉ r.items.map (fun it => it.skuID) →
            (inventoryUseCase.ConfirmReservation now resId "" s).2.inv k = s.inv k))
    ∧ (r.status ≠ .pending →
      inventoryUseCase.ReleaseReservation now resId "" s = (some .reservationNotPending, s))
    ∧ (r.status = .pending →
        (inventoryUseCase.ReleaseReservation now resId "" s).1 = none
        ∧ findResById resId
            (inventoryUseCase.ReleaseReservation now resId "" s).2.reservations =
            some { r with status := .released, updatedAt := now }
        ∧ (∀ it ∈ r.items, ∃ i, s.inv it.skuID = some i ∧
            (inventoryUseCase.ReleaseReservation now resId "" s).2.inv it.skuID =
              some { i with reserved := i.reserved - it.quantity, version := i.version + 1 })
        ∧ (∀ k, k ∉ r.items.map (fun it => it.skuID) →
            (inventoryUseCase.ReleaseReservation now resId "" s).2.inv k = s.inv k)) := by
  have hfound' : s.reservations.find? (fun x : Reservation => x.id = resId) = some r := hfound
  refine ⟨?_, ?_, ?_, ?_, ?_, ?_⟩
  · intro hexp hst
    have hc : r.Confirm now = .error .reservationExpired := by
      unfold Reservation.Confirm Reservation.CanConfirm Reservation.IsPending
      rw [hexp]
      simp [hst]
    unfold inventoryUseCase.ConfirmReservation
    rw [if_neg (by simp), hfound]
    dsimp only
    rw [hc]
  · intro hexp hst
    have hc : r.Confirm now = .error .reservationExpired := by
      unfold Reservation.Confirm Reservation.CanConfirm Reservation.IsPending
      rw [hexp]
      simp [hst]
    unfold inventoryUseCase.ConfirmReservation
    rw [if_neg (by simp), hfound]
    dsimp only
    rw [hc]
  · intro hexp hst
    have hc : r.Confirm now = .error .reservationNotPending := by
      unfold Reservation.Confirm Reservation.CanConfirm Reservation.IsPending
      rw [hexp]
      simp [hst]
    unfold inventoryUseCase.ConfirmReservation
    rw [if_neg (by simp), hfound]
    dsimp only
    rw [hc]
  · intro hexp hst
    have hc : r.Confirm now = .ok { r with status := .confirmed, updatedAt := now } := by
      unfold Reservation.Confirm Reservation.CanConfirm Reservation.IsPending
      rw [hexp]
      simp [hst]
    obtain ⟨hl1, hl2, hl3⟩ := runItemsLoop_spec confirmUpdate r.items s.inv hnd hall
    have hrun : runConfirmItems r.items s.inv =
        (none, (runItemsLoop confirmUpdate r.items s.inv).2) := by
      unfold runConfirmItems
      exact Prod.ext hl1 rfl
    have hupd : PostgresReservationRepository.UpdateStatus resId .confirmed now
        s.reservations =
        .ok (s.reservations.map (fun x =>
          if x.id = resId then { x with status := .confirmed, updatedAt := now } else x)) := by
      unfold PostgresReservationRepository.UpdateStatus
      rw [if_pos (by rw [hfound']; rfl)]
    have heq : inventoryUseCase.ConfirmReservation now resId "" s =
        (none,
         { inv := (runItemsLoop confirmUpdate r.items s.inv).2
         , reservations := s.reservations.map (fun x =>
             if x.id = resId then { x with status := .confirmed, updatedAt := now } else x)
         , idem := s.idem }) := by
      unfold inventoryUseCase.ConfirmReservation
      rw [if_neg (by simp), hfound]
      dsimp only
      rw [hc]
      dsimp only
      rw [hrun]
      dsimp only
      rw [hupd]
      dsimp only
      rw [if_neg (by simp)]
    refine ⟨by rw [heq], ?_, ?_, ?_⟩
    · rw [heq]
      exact find_map_update s.reservations resId r .confirmed now hfound'
    · intro it hit
      obtain ⟨i, hi1, hi2⟩ := hl2 it hit
      exact ⟨i, hi1, by rw [heq]; exact hi2⟩
    · intro k hk
      rw [heq]
      exact hl3 k hk
  · intro hst
    have hc : r.Release now = .error .reservationNotPending := by
      unfold Reservation.Release Reservation.CanRelease Reservation.IsPending
      simp [hst]
    unfold inventoryUseCase.ReleaseReservation
    rw [if_neg (by simp), hfound]
    dsimp only
    rw [hc]
  · intro hst
    have hc : r.Release now = .ok { r with status := .released, updatedAt := now } := by
      unfold Reservation.Release Reservation.CanRelease Reservation.IsPending
      simp [hst]
    obtain ⟨hl1, hl2, hl3⟩ := runItemsLoop_spec releaseUpdate r.items s.inv hnd hall
    have hrun : runReleaseItems r.items s.inv =
        (none, (runItemsLoop releaseUpdate r.items s.inv).2) := by
      unfold runReleaseItems
      exact Prod.ext hl1 rfl
    have hupd : PostgresReservationRepository.UpdateStatus resId .released now
        s.reservations =
        .ok (s.reservations.map (fun x =>
          if x.id = resId then { x with status := .released, updatedAt := now } else x)) := by
      unfold PostgresReservationRepository.UpdateStatus
      rw [if_pos (by rw [hfound']; rfl)]
    have heq : inventoryUseCase.ReleaseReservation now resId "" s =
        (none,
         { inv := (runItemsLoop releaseUpdate r.items s.inv).2
         , reservations := s.reservations.map (fun x =>
             if x.id = resId then { x with status := .released, updatedAt := now } else x)
         , idem := s.idem }) := by
      unfold inventoryUseCase.ReleaseReservation
      rw [if_neg (by simp), hfound]
      dsimp only
      rw [hc]
      dsimp only
      rw [hrun]
      dsimp only
      rw [hupd]
      dsimp only
      rw [if_neg (by simp)]
    refine ⟨by rw [heq], ?_, ?_, ?_⟩
    · rw [heq]
      exact find_map_update s.reservations resId r .released now hfound'
    · intro it hit
      obtain ⟨i, hi1, hi2⟩ := hl2 it hit
      exact ⟨i, hi1, by rw [heq]; exact hi2⟩
    · intro k hk
      rw [heq]
      exact hl3 k hk

/-- Closed witness for C4: confirming a loaded PENDING, unexpired
reservation succeeds. -/
theorem confirm_release_asymmetry_witness :
    (inventoryUseCase.ConfirmReservation 5 1 "" c4State).1 = none :=
  ((confirm_release_asymmetry 5 1 c4State c4Reservation rfl (by decide)
      (fun it hit => by
        simp [c4State, c4Reservation] at hit
        subst hit
        exact ⟨{ skuID := 1, quantity := 10, reserved := 5, version := 1 }, rfl, by decide⟩)).2.2.2.1
    rfl rfl).1

/-- C3: the idempotency replay law of `BatchReserveInventory`. After a
first successful call with a non-empty idempotency key (and a fresh
reservation id), the key holds the reservation's id; every repeated call
with the same input — any later time, any other fresh id — returns the
very same reservation and leaves the whole state untouched (no inventory
mutation, no second insert); and from any state in which the key still
holds the "processing" marker, the call fails with IdempotencyKeyExists
and changes nothing. -/
theorem batchReserve_idempotent_replay (cfg : UCConfig) (now now2 : Int)
    (freshId freshId2 : Nat) (input : BatchReserveInput) (s0 s1 : UCState) (r : Reservation)
    (hkey : input.idempotencyKey ≠ "")
    (hfresh : findResById freshId s0.reservations = none)
    (hfirst : inventoryUseCase.BatchReserveInventory cfg now freshId input s0 = (.ok r, s1)) :
    s1.idem input.idempotencyKey = some (.rid r.id)
    ∧ inventoryUseCase.BatchReserveInventory cfg now2 freshId2 input s1 = (.ok r, s1)
    ∧ (∀ s', s'.idem input.idempotencyKey = some .processing →
        inventoryUseCase.BatchReserveInventory cfg now2 freshId2 input s' =
          (.error .idempotencyKeyExists, s')) := by
  have hne : ¬ (input.items = []) := by
    intro h
    unfold inventoryUseCase.BatchReserveInventory at hfirst
    rw [if_pos h] at hfirst
    exact absurd hfirst (by simp)
  have hlen : ¬ (input.items.length > cfg.maxBatchSize) := by
    intro h
    unfold inventoryUseCase.BatchReserveInventory at hfirst
    rw [if_neg hne, if_pos h] at hfirst
    exact absurd hfirst (by simp)
  have hproc : ∀ s', s'.idem input.idempotencyKey = some .processing →
      inventoryUseCase.BatchReserveInventory cfg now2 freshId2 input s' =
        (.error .idempotencyKeyExists, s') := by
    intro s' hp
    unfold inventoryUseCase.BatchReserveInventory
    rw [if_neg hne, if_neg hlen, if_neg hkey, hp]
  have hsecond : ∀ i', s1.idem input.idempotencyKey = some (.rid i') →
      findResById i' s1.reservations = some r →
      inventoryUseCase.BatchReserveInventory cfg now2 freshId2 input s1 = (.ok r, s1) := by
    intro i' hidem1 hfind1
    unfold inventoryUseCase.BatchReserveInventory
    rw [if_neg hne, if_neg hlen, if_neg hkey, hidem1]
    dsimp only
    rw [hfind1]
  unfold inventoryUseCase.BatchReserveInventory at hfirst
  rw [if_neg hne, if_neg hlen, if_neg hkey] at hfirst
  cases hidem : s0.idem input.idempotencyKey with
  | none =>
    rw [hidem] at hfirst
    dsimp only at hfirst
    unfold inventoryUseCase.batchReserveLocked at hfirst
    dsimp only at hfirst
    cases hnr : NewReservation (sortItems input.items)
        (if input.ttl = 0 then cfg.defaultTTL else input.ttl) now freshId with
    | error e =>
      rw [hnr] at hfirst
      dsimp only at hfirst
      exact absurd hfirst (by simp)
    | ok r0 =>
      rw [hnr] at hfirst
      dsimp only at hfirst
      cases htx : inventoryUseCase.txReserveItems (sortItems input.items) s0.inv with
      | error e =>
        rw [htx] at hfirst
        dsimp only at hfirst
        exact absurd hfirst (by simp)
      | ok m' =>
        rw [htx] at hfirst
        dsimp only at hfirst
        rw [if_pos hkey] at hfirst
        rw [Prod.mk.injEq, Except.ok.injEq] at hfirst
        obtain ⟨hr0, hs1⟩ := hfirst
        have hid : r0.id = freshId := by
          unfold NewReservation at hnr
          split at hnr
          · exact absurd hnr (by simp)
          · split at hnr
            · exact absurd hnr (by simp)
            · cases hnr
              rfl
        have hidr : r.id = freshId := by
          rw [← hr0]
          exact hid
        have ha : s1.idem input.idempotencyKey = some (.rid r.id) := by
          rw [← hs1]
          dsimp only
          unfold kvSet
          rw [if_pos rfl, ← hr0]
        have hfind1 : findResById r.id s1.reservations = some r := by
          rw [← hs1]
          unfold findResById
          dsimp only
          rw [hidr]
          rw [find_append_of_none _ s0.reservations [r0] hfresh]
          simp [List.find?, hid, hr0, hidr]
        exact ⟨ha, hsecond r.id ha hfind1, hproc⟩
  | some v =>
    cases v with
    | processing =>
      rw [hidem] at hfirst
      dsimp only at hfirst
      exact absurd hfirst (by simp)
    | done =>
      rw [hidem] at hfirst
      dsimp only at hfirst
      exact absurd hfirst (by simp)
    | rid i =>
      rw [hidem] at hfirst
      dsimp only at hfirst
      cases hf2 : findResById i s0.reservations with
      | none =>
        rw [hf2] at hfirst
        dsimp only at hfirst
        exact absurd hfirst (by simp)
      | some rr =>
        rw [hf2] at hfirst
        dsimp only at hfirst
        rw [Prod.mk.injEq, Except.ok.injEq] at hfirst
        obtain ⟨hrr, hs1⟩ := hfirst
        have hri : rr.id = i := by
          have := List.find?_some (p := fun x : Reservation => decide (x.id = i)) hf2
          simpa using this
        have hri2 : r.id = i := by
          rw [← hrr]
          exact hri
        have ha : s1.idem input.idempotencyKey = some (.rid r.id) := by
          rw [← hs1, hidem, hri2]
        have hfind1 : findResById i s1.reservations = some r := by
          rw [← hs1, ← hrr]
          exact hf2
        refine ⟨ha, hsecond i (by rw [ha, hri2]) hfind1, hproc⟩

/-- Closed witness for C3: after a successful first reservation under key
"K", the repeated call — at a later time, with another fresh id — returns
the same reservation and the same state. -/
theorem batchReserve_idempotent_replay_witness :
    inventoryUseCase.BatchReserveInventory c3Cfg 7 99 c3Input c3State1 =
      (.ok c3Res, c3State1) :=
  (batchReserve_idempotent_replay c3Cfg 0 7 42 99 c3Input c3State c3State1 c3Res
    (by decide) rfl rfl).2.1

end ECSpec
